import Mathlib

/-
Shallow embedding of the Tetris game-state engine from src/main.py.
Pure data (shape table, piece geometry) and the stateful Board and Game
operations are translated into explicit state-passing functions.
Randomness (random.shuffle of the 7 kinds used by Board._refill_bag) is
modelled nondeterministically: the board carries a stream of shuffle
results, each of which is, as in the source, a permutation of the list
of the 7 piece kinds.
-/

namespace Tetris

/- The 7 piece kinds, the keys of SHAPE_DEFS in source order I,J,L,O,S,T,Z. -/
inductive Kind where
  | I | J | L | O | S | T | Z
deriving DecidableEq, Repr

/- list(SHAPE_DEFS.keys()) in insertion order. -/
def allKinds : List Kind := [Kind.I, Kind.J, Kind.L, Kind.O, Kind.S, Kind.T, Kind.Z]

/- Colors are RGB triples. -/
abbrev Color := Nat × Nat × Nat

/- COLORS dictionary from the source. -/
def COLORS : Kind → Color
  | Kind.I => (0, 240, 240)
  | Kind.J => (0, 0, 240)
  | Kind.L => (240, 160, 0)
  | Kind.O => (240, 240, 0)
  | Kind.S => (0, 240, 0)
  | Kind.T => (160, 0, 240)
  | Kind.Z => (240, 0, 0)

/- SHAPE_DEFS: base layouts for rotation state 0, rows of characters. -/
def SHAPE_DEFS : Kind → List String
  | Kind.I => ["....", "XXXX", "....", "...."]
  | Kind.J => ["X..", "XXX", "...", "..."]
  | Kind.L => ["..X", "XXX", "...", "..."]
  | Kind.O => [".XX.", ".XX.", "....", "...."]
  | Kind.S => [".XX", "XX.", "...", "..."]
  | Kind.T => [".X.", "XXX", "...", "..."]
  | Kind.Z => ["XX.", ".XX", "...", "..."]

/- shape_from_grid: collect the coordinates of the X characters, row major. -/
def shape_from_grid (g : List String) : List (Int × Int) :=
  (g.enum.map (fun yr =>
    yr.2.toList.enum.filterMap (fun xc =>
      if xc.2 = 'X' then some ((xc.1 : Int), (yr.1 : Int)) else none))).flatten

/- rotate_point: rotate 90 degrees clockwise within the 4x4 box. -/
def rotate_point (p : Int × Int) : Int × Int := (3 - p.2, p.1)

/- The precomputed rotation states: state 0 is the base layout, state n+1
is state n with rotate_point applied to each cell.  The source stores the
states for n = 0..3 in a list. -/
def shapeStates (k : Kind) : Nat → List (Int × Int)
  | 0 => shape_from_grid (SHAPE_DEFS k)
  | n + 1 => (shapeStates k n).map rotate_point

/- TETROMINO_SHAPES[k][r].  In the source r is always in 0..3 (rotations
are reduced mod 4 on construction); indexing is totalised with r % 4. -/
def TETROMINO_SHAPES (k : Kind) (r : Nat) : List (Int × Int) :=
  shapeStates k (r % 4)

/- WALL_KICKS: the fixed kick priority order. -/
def WALL_KICKS : List (Int × Int) := [(0, 0), (1, 0), (-1, 0), (0, -1), (2, 0), (-2, 0)]

/- Piece dataclass: kind, anchor x, anchor y, rotation index. -/
structure Piece where
  kind : Kind
  x : Int
  y : Int
  rotation : Nat
deriving DecidableEq, Repr

def Piece.color (p : Piece) : Color := COLORS p.kind

/- Piece.cells(): shape offsets translated by the anchor. -/
def Piece.cells (p : Piece) : List (Int × Int) :=
  (TETROMINO_SHAPES p.kind p.rotation).map (fun c => (p.x + c.1, p.y + c.2))

/- Piece.rotated(dr): same anchor, rotation advanced by dr modulo 4
(Python % on a positive modulus, i.e. the nonnegative remainder). -/
def Piece.rotated (p : Piece) (dr : Int) : Piece :=
  ⟨p.kind, p.x, p.y, (((p.rotation : Int) + dr) % 4).toNat⟩

/- grid[y][x] is None (empty) or a color. -/
abbrev Grid := List (List (Option Color))

/- A result of random.shuffle(list(SHAPE_DEFS.keys())): some permutation
of the 7 kinds. -/
def Shuffle := { l : List Kind // List.Perm l allKinds }

def Shuffle.ne_nil (s : Shuffle) : s.val ≠ [] := by
  intro h
  have hlen := s.property.length_eq
  rw [h] at hlen
  simp [allKinds] at hlen

/- Board state.  rng is the stream of shuffle results consumed by
successive bag refills, rngIdx the count of refills so far. -/
structure Board where
  cols : Nat
  rows : Nat
  grid : Grid
  current : Option Piece
  hold : Option Kind
  can_hold : Bool
  bag : List Kind
  rng : Nat → Shuffle
  rngIdx : Nat
  next_queue : List Kind
  score : Nat
  lines_cleared : Nat
  level : Nat
  game_over : Bool

/- Board._next_from_bag: refill the bag with a fresh shuffle when empty,
then pop (Python list.pop removes the LAST element). -/
def next_from_bag (b : Board) : Kind × Board :=
  if hb : b.bag = [] then
    let sh := (b.rng b.rngIdx).val
    (sh.getLast (Shuffle.ne_nil (b.rng b.rngIdx)),
      { b with bag := sh.dropLast, rngIdx := b.rngIdx + 1 })
  else
    (b.bag.getLast hb, { b with bag := b.bag.dropLast })

/- Draw one kind and append it to the next queue (the repeated pattern
next_queue.append(self._next_from_bag()) in the source). -/
def drawAppend (b : Board) : Board :=
  let r := next_from_bag b
  { r.2 with next_queue := r.2.next_queue ++ [r.1] }

/- Board._in_bounds. -/
def in_bounds (b : Board) (x y : Int) : Bool :=
  decide (0 ≤ x ∧ x < (b.cols : Int) ∧ y < (b.rows : Int))

/- self.grid[y][x], guarded in the source by the in-bounds check. -/
def cellAt (b : Board) (x y : Int) : Option Color :=
  (b.grid.getD y.toNat []).getD x.toNat none

/- Board._valid: each cell above the board (y < 0) only needs its column
in range; other cells must be in bounds and land on an empty grid cell. -/
def valid (b : Board) (p : Piece) : Bool :=
  p.cells.all (fun c =>
    if c.2 < 0 then decide (0 ≤ c.1 ∧ c.1 < (b.cols : Int))
    else in_bounds b c.1 c.2 && (cellAt b c.1 c.2).isNone)

/- Board.try_move. -/
def try_move (dx dy : Int) (b : Board) : Bool × Board :=
  match b.current with
  | none => (false, b)
  | some cur =>
    let moved : Piece := ⟨cur.kind, cur.x + dx, cur.y + dy, cur.rotation⟩
    if valid b moved then (true, { b with current := some moved }) else (false, b)

/- The candidate tried for one kick offset. -/
def kickCand (rotated : Piece) (k : Int × Int) : Piece :=
  ⟨rotated.kind, rotated.x + k.1, rotated.y + k.2, rotated.rotation⟩

/- The kick loop of Board.try_rotate: first valid candidate wins. -/
def tryKicks (b : Board) (rotated : Piece) : List (Int × Int) → Option Piece
  | [] => none
  | k :: rest =>
    if valid b (kickCand rotated k) then some (kickCand rotated k)
    else tryKicks b rotated rest

/- Board.try_rotate. -/
def try_rotate (dr : Int) (b : Board) : Bool × Board :=
  match b.current with
  | none => (false, b)
  | some cur =>
    match tryKicks b (cur.rotated dr) WALL_KICKS with
    | some cand => (true, { b with current := some cand })
    | none => (false, b)

/- The piece translated n rows down. -/
def downBy (p : Piece) (n : Nat) : Piece := ⟨p.kind, p.x, p.y + (n : Int), p.rotation⟩

/- The probing loop of Board.hard_drop_distance: count consecutive valid
one-row-down steps.  The source's while loop terminates because a valid
piece always sits above row `rows`; here the recursion carries fuel and
probeFuel below provides strictly more than the possible step count. -/
def dropProbe (b : Board) : Piece → Nat → Nat
  | _, 0 => 0
  | tmp, fuel + 1 =>
    if valid b ⟨tmp.kind, tmp.x, tmp.y + 1, tmp.rotation⟩ then
      dropProbe b ⟨tmp.kind, tmp.x, tmp.y + 1, tmp.rotation⟩ fuel + 1
    else 0

def probeFuel (b : Board) (p : Piece) : Nat := ((b.rows : Int) + 1 - p.y).toNat

/- Board.hard_drop_distance. -/
def hard_drop_distance (b : Board) : Nat :=
  match b.current with
  | none => 0
  | some cur => dropProbe b cur (probeFuel b cur)

/- One grid write grid[y][x] = color of Board.lock_piece (List.set leaves
the grid unchanged out of range; locked pieces are valid, so writes are
in range whenever the grid is well formed). -/
def setCell (g : Grid) (x y : Int) (c : Color) : Grid :=
  g.set y.toNat ((g.getD y.toNat []).set x.toNat (some c))

/- One iteration of the cell loop in Board.lock_piece: a cell above the
board sets game over and is not written; others are written to the grid. -/
def lockStep (color : Color) (acc : Grid × Bool) (cell : Int × Int) : Grid × Bool :=
  if cell.2 < 0 then (acc.1, true)
  else (setCell acc.1 cell.1 cell.2 color, acc.2)

/- The whole cell loop of Board.lock_piece over a piece's cells, starting
from the given grid and game-over flag. -/
def lockFold (g : Grid) (go : Bool) (p : Piece) : Grid × Bool :=
  p.cells.foldl (lockStep (COLORS p.kind)) (g, go)

/- An all-empty row of the given width. -/
def emptyRow (cols : Nat) : List (Option Color) := List.replicate cols none

/- The number of full rows of a grid (a row is full when every cell is
occupied; the source keeps the complementary rows, those with some empty
cell). -/
def fullCount (g : Grid) : Nat :=
  (g.filter (fun row => row.all (fun c => c.isSome))).length

/- The line_scores dictionary lookup line_scores.get(cleared, 0). -/
def lineScores : Nat → Nat
  | 1 => 100
  | 2 => 300
  | 3 => 500
  | 4 => 800
  | _ => 0

/- Board._apply_scoring. -/
def apply_scoring (cleared : Nat) (b : Board) : Board :=
  let b1 := { b with score := b.score + lineScores cleared * b.level }
  let b2 := { b1 with lines_cleared := b1.lines_cleared + cleared }
  { b2 with level := 1 + b2.lines_cleared / 10 }

/- Board._clear_lines_efficient. -/
def clear_lines_efficient (b : Board) : Board :=
  let newGrid := b.grid.filter (fun row => row.any (fun cell => cell.isNone))
  let cleared := b.rows - newGrid.length
  if 0 < cleared then
    apply_scoring cleared
      { b with grid := List.replicate cleared (emptyRow b.cols) ++ newGrid }
  else b

/- The tail of Board.spawn once the kind has been popped: draw-append
one replacement kind, build the piece at the spawn anchor (rotation 0,
y = -1 for the I kind, else y = 0), validate, and either install it with
can_hold reset or set game over. -/
def spawnWith (kind : Kind) (b : Board) : Board :=
  let b2 := drawAppend b
  let spawnX : Int := (b2.cols : Int) / 2 - 2
  let spawnY : Int := if kind = Kind.I then -1 else 0
  let piece : Piece := ⟨kind, spawnX, spawnY, 0⟩
  if valid b2 piece then { b2 with current := some piece, can_hold := true }
  else { b2 with game_over := true }

/- kind = self.next_queue.pop(0) and the rest of Board.spawn.  The []
branch is unreachable from spawn: the guard just ensured the queue is
nonempty. -/
def spawnPop (b1 : Board) : Board :=
  match b1.next_queue with
  | [] => b1
  | kind :: rest => spawnWith kind { b1 with next_queue := rest }

/- Board.spawn. -/
def spawn (b0 : Board) : Board :=
  spawnPop (if b0.next_queue.isEmpty then drawAppend b0 else b0)

/- Board.lock_piece: write the cells (cells above the board set game
over instead), drop the current piece, clear lines, then spawn. -/
def lock_piece (b : Board) : Board :=
  match b.current with
  | none => b
  | some cur =>
    let r := lockFold b.grid b.game_over cur
    spawn (clear_lines_efficient { b with grid := r.1, game_over := r.2, current := none })

/- The board state right after the cell-writing loop of lock_piece:
grid and game-over flag from the fold, current piece dropped. -/
def lockedBoard (b : Board) (cur : Piece) : Board :=
  { b with grid := (lockFold b.grid b.game_over cur).1,
           game_over := (lockFold b.grid b.game_over cur).2, current := none }

/- Board.hard_drop: move the piece down by the drop distance, lock, then
reward 2 points per row dropped. -/
def hard_drop (b : Board) : Board :=
  match b.current with
  | none => b
  | some cur =>
    let drop := hard_drop_distance b
    let b1 := { b with current := some ⟨cur.kind, cur.x, cur.y + (drop : Int), cur.rotation⟩ }
    let b2 := lock_piece b1
    { b2 with score := b2.score + 2 * drop }

/- Board.soft_drop: a one-row move down, 1 point on success. -/
def soft_drop (b : Board) : Bool × Board :=
  let r := try_move 0 1 b
  if r.1 then (true, { r.2 with score := r.2.score + 1 }) else r

/- Board.hold_piece. -/
def hold_piece (b : Board) : Board :=
  match b.current with
  | none => b
  | some cur =>
    if b.can_hold then
      match b.hold with
      | none =>
        let b1 := spawn { b with hold := some cur.kind }
        { b1 with can_hold := false }
      | some h =>
        let newPiece : Piece := ⟨h, (b.cols : Int) / 2 - 2, 0, 0⟩
        let b1 := { b with current := some newPiece, hold := some cur.kind }
        let b2 := if valid b1 newPiece then b1 else { b1 with game_over := true }
        { b2 with can_hold := false }
    else b

/- Board.ghost_cells. -/
def ghost_cells (b : Board) : List (Int × Int) :=
  match b.current with
  | none => []
  | some cur =>
    let dist := hard_drop_distance b
    cur.cells.map (fun c => (c.1, c.2 + (dist : Int)))

/- Board.__init__: empty grid, no piece, empty bag, then five draws
appended to the next queue. -/
def initBoard (cols rows : Nat) (rng : Nat → Shuffle) : Board :=
  let base : Board :=
    { cols := cols, rows := rows
      grid := List.replicate rows (List.replicate cols none)
      current := none, hold := none, can_hold := true
      bag := [], rng := rng, rngIdx := 0, next_queue := []
      score := 0, lines_cleared := 0, level := 1, game_over := false }
  drawAppend (drawAppend (drawAppend (drawAppend (drawAppend base))))

/- The game-level key intents dispatched by Game.handle_input for a
KEYDOWN event (quit keys aside). -/
inductive Key where
  | kLeft | kRight | kDown | kUp | kZ | kX | kSpace | kC
deriving DecidableEq, Repr

/- One KEYDOWN dispatch in Game.handle_input: every game key is skipped
while game over is set. -/
def handle_key (b : Board) (k : Key) : Board :=
  if b.game_over then b
  else
    match k with
    | Key.kLeft => (try_move (-1) 0 b).2
    | Key.kRight => (try_move 1 0 b).2
    | Key.kDown => (soft_drop b).2
    | Key.kUp => (try_rotate 1 b).2
    | Key.kX => (try_rotate 1 b).2
    | Key.kZ => (try_rotate (-1) b).2
    | Key.kSpace => hard_drop b
    | Key.kC => hold_piece b

/- LEVEL_SPEEDS, the gravity intervals; the float literals of the source
are modelled as exact rationals. -/
def LEVEL_SPEEDS : List ℚ :=
  [0.80, 0.72, 0.63, 0.55, 0.47, 0.38, 0.30, 0.22, 0.13, 0.10, 0.09, 0.08, 0.07, 0.06, 0.05]

structure GameState where
  board : Board
  time_since_gravity : ℚ

/- Game.gravity_interval. -/
def gravity_interval (b : Board) : ℚ :=
  LEVEL_SPEEDS.getD (min (b.level - 1) (LEVEL_SPEEDS.length - 1)) 0

/- The while loop of Game.update, with fuel, returning the final board,
the remaining accumulated time, and the number of lock_piece calls made.
Each pass subtracts the interval and tries one row down; the first
failed move locks and leaves the loop. -/
def gravSteps : Nat → Board → ℚ → ℚ → Board × ℚ × Nat
  | 0, b, acc, _ => (b, acc, 0)
  | fuel + 1, b, acc, itv =>
    if itv ≤ acc then
      let acc2 := acc - itv
      let r := try_move 0 1 b
      if r.1 then
        let s := gravSteps fuel r.2 acc2 itv
        (s.1, s.2.1, s.2.2)
      else (lock_piece r.2, acc2, 1)
    else (b, acc, 0)

/- Enough fuel to drain the accumulated time when the interval is
positive (and the gravity intervals of the table are all positive). -/
def fuelFor (acc itv : ℚ) : Nat := (acc / itv).ceil.toNat + 1

/- Game.update: early return while game over, otherwise accumulate the
elapsed time and run the gravity loop. -/
def update (dt : ℚ) (g : GameState) : GameState :=
  if g.board.game_over then g
  else
    let acc := g.time_since_gravity + dt
    let itv := gravity_interval g.board
    let r := gravSteps (fuelFor acc itv) g.board acc itv
    { board := r.1, time_since_gravity := r.2.1 }

/- Concrete fixtures used to instantiate the theorems below. -/
def idShuffle : Shuffle := ⟨allKinds, List.Perm.refl allKinds⟩

def wRng : Nat → Shuffle := fun _ => idShuffle

def wQueue : List Kind := [Kind.T, Kind.T, Kind.T, Kind.T, Kind.T]

/- A 2x3 board whose middle row is full. -/
def bw1 : Board :=
  { cols := 2, rows := 3
    grid := [[none, none],
             [some (COLORS Kind.T), some (COLORS Kind.T)],
             [none, some (COLORS Kind.O)]]
    current := none, hold := none, can_hold := true
    bag := [], rng := wRng, rngIdx := 0, next_queue := wQueue
    score := 0, lines_cleared := 0, level := 1, game_over := false }

/- A 2x2 board whose current O piece exactly fills the whole grid. -/
def bw2 : Board :=
  { cols := 2, rows := 2
    grid := [[none, none], [none, none]]
    current := some (Piece.mk Kind.O (-1) 0 0), hold := none, can_hold := true
    bag := [], rng := wRng, rngIdx := 0, next_queue := wQueue
    score := 0, lines_cleared := 0, level := 1, game_over := false }

/- A 5x4 board whose T piece, rotated clockwise, is blocked in place but
free one column to the right. -/
def bw3 : Board :=
  { cols := 5, rows := 4
    grid := [[none, none, some (COLORS Kind.T), none, none],
             [none, none, none, none, none],
             [none, none, none, none, none],
             [none, none, none, none, none]]
    current := some (Piece.mk Kind.T 0 0 0), hold := none, can_hold := true
    bag := [], rng := wRng, rngIdx := 0, next_queue := wQueue
    score := 0, lines_cleared := 0, level := 1, game_over := false }

/- A fully occupied 5x4 board: no kick can succeed. -/
def fullRow5 : List (Option Color) := List.replicate 5 (some (COLORS Kind.T))

def bw3b : Board :=
  { cols := 5, rows := 4
    grid := [fullRow5, fullRow5, fullRow5, fullRow5]
    current := some (Piece.mk Kind.T 0 0 0), hold := none, can_hold := true
    bag := [], rng := wRng, rngIdx := 0, next_queue := wQueue
    score := 0, lines_cleared := 0, level := 1, game_over := false }

/- A 10x2 board holding an O kind whose swap-in collides at the spawn
anchor: cell (4,1) is occupied. -/
def bw4 : Board :=
  { cols := 10, rows := 2
    grid := [List.replicate 10 none,
             (List.replicate 10 none).set 4 (some (COLORS Kind.T))]
    current := some (Piece.mk Kind.T 0 0 0), hold := some Kind.O, can_hold := true
    bag := [], rng := wRng, rngIdx := 0, next_queue := wQueue
    score := 0, lines_cleared := 0, level := 1, game_over := false }

/- A game-over board. -/
def bw5 : Board :=
  { cols := 4, rows := 2
    grid := [[none, none, none, none], [none, none, none, none]]
    current := none, hold := none, can_hold := true
    bag := [], rng := wRng, rngIdx := 0, next_queue := wQueue
    score := 0, lines_cleared := 0, level := 1, game_over := true }

def gw5 : GameState := { board := bw5, time_since_gravity := 0 }

/- An empty 4x3 board with no current piece: the next spawn succeeds. -/
def bw6a : Board :=
  { cols := 4, rows := 3
    grid := [[none, none, none, none], [none, none, none, none], [none, none, none, none]]
    current := none, hold := none, can_hold := true
    bag := [], rng := wRng, rngIdx := 0, next_queue := wQueue
    score := 0, lines_cleared := 0, level := 1, game_over := false }

/- A fully occupied 4x3 board with no current piece: the next spawn
collides. -/
def fullRow4 : List (Option Color) := List.replicate 4 (some (COLORS Kind.T))

def bw6b : Board :=
  { cols := 4, rows := 3
    grid := [fullRow4, fullRow4, fullRow4]
    current := none, hold := none, can_hold := true
    bag := [], rng := wRng, rngIdx := 0, next_queue := wQueue
    score := 0, lines_cleared := 0, level := 1, game_over := false }

/- An empty 4x4 board with a T piece at the top-left corner. -/
def bw7 : Board :=
  { cols := 4, rows := 4
    grid := [[none, none, none, none], [none, none, none, none],
             [none, none, none, none], [none, none, none, none]]
    current := some (Piece.mk Kind.T 0 0 0), hold := none, can_hold := true
    bag := [], rng := wRng, rngIdx := 0, next_queue := wQueue
    score := 0, lines_cleared := 0, level := 1, game_over := false }

/- A 2x2 board whose O piece rests on the floor: one gravity step fails
and locks. -/
def bw8 : Board :=
  { cols := 2, rows := 2
    grid := [[none, none], [none, none]]
    current := some (Piece.mk Kind.O (-1) 0 0), hold := none, can_hold := true
    bag := [], rng := wRng, rngIdx := 0, next_queue := wQueue
    score := 0, lines_cleared := 0, level := 1, game_over := false }

/- A board with a five-kind queue, for the queue-length invariant. -/
def bw9 : Board :=
  { cols := 4, rows := 3
    grid := [[none, none, none, none], [none, none, none, none], [none, none, none, none]]
    current := some (Piece.mk Kind.T 0 0 0), hold := none, can_hold := true
    bag := [], rng := wRng, rngIdx := 0, next_queue := wQueue
    score := 0, lines_cleared := 0, level := 1, game_over := false }

/- A board with no current piece, for the totality claim. -/
def bw10 : Board :=
  { cols := 4, rows := 3
    grid := [[none, none, none, none], [none, none, none, none], [none, none, none, none]]
    current := none, hold := none, can_hold := true
    bag := [], rng := wRng, rngIdx := 0, next_queue := wQueue
    score := 0, lines_cleared := 0, level := 1, game_over := false }

/- ------------------------------------------------------------------ -/
/- Helper lemmas                                                      -/
/- ------------------------------------------------------------------ -/

lemma shapeStates_ne_nil (k : Kind) (n : Nat) : shapeStates k n ≠ [] := by
  induction n with
  | zero => cases k <;> decide
  | succ m ih =>
    simp only [shapeStates]
    intro h
    exact ih (List.map_eq_nil_iff.mp h)

lemma shape_mem_bounds (k : Kind) (n : Nat) :
    ∀ c ∈ shapeStates k n, 0 ≤ c.1 ∧ c.1 ≤ 3 ∧ 0 ≤ c.2 ∧ c.2 ≤ 3 := by
  induction n with
  | zero => cases k <;> decide
  | succ m ih =>
    intro c hc
    simp only [shapeStates, List.mem_map] at hc
    obtain ⟨d, hd, rfl⟩ := hc
    have hb := ih d hd
    simp only [rotate_point]
    constructor
    · omega
    · exact ⟨by omega, hb.1, by omega⟩

lemma TETROMINO_SHAPES_ne_nil (k : Kind) (r : Nat) : TETROMINO_SHAPES k r ≠ [] :=
  shapeStates_ne_nil k (r % 4)

lemma TETROMINO_SHAPES_bounds (k : Kind) (r : Nat) :
    ∀ c ∈ TETROMINO_SHAPES k r, 0 ≤ c.1 ∧ c.1 ≤ 3 ∧ 0 ≤ c.2 ∧ c.2 ≤ 3 :=
  shape_mem_bounds k (r % 4)

lemma valid_y_lt (b : Board) (p : Piece) (h : valid b p = true) : p.y < (b.rows : Int) := by
  obtain ⟨c, cs, hcs⟩ : ∃ c cs, TETROMINO_SHAPES p.kind p.rotation = c :: cs := by
    cases hT : TETROMINO_SHAPES p.kind p.rotation with
    | nil => exact absurd hT (TETROMINO_SHAPES_ne_nil p.kind p.rotation)
    | cons c cs => exact ⟨c, cs, rfl⟩
  have hcy : 0 ≤ c.2 := ((TETROMINO_SHAPES_bounds p.kind p.rotation c
    (by rw [hcs]; exact List.mem_cons_self c cs))).2.2.1
  have hmem : (p.x + c.1, p.y + c.2) ∈ p.cells := by
    simp only [Piece.cells, List.mem_map]
    exact ⟨c, by rw [hcs]; exact List.mem_cons_self c cs, rfl⟩
  have hall := List.all_eq_true.mp h _ hmem
  by_cases hneg : p.y + c.2 < 0
  · have hr : (0 : Int) ≤ (b.rows : Int) := Int.natCast_nonneg b.rows
    omega
  · simp only [hneg, if_neg, ite_false, Bool.and_eq_true] at hall
    have hib := of_decide_eq_true hall.1
    omega

lemma dropProbe_le (b : Board) : ∀ (fuel : Nat) (tmp : Piece), dropProbe b tmp fuel ≤ fuel := by
  intro fuel
  induction fuel with
  | zero => intro tmp; simp [dropProbe]
  | succ m ih =>
    intro tmp
    simp only [dropProbe]
    split
    · exact Nat.succ_le_succ (ih _)
    · omega

lemma dropProbe_valid_steps (b : Board) : ∀ (fuel : Nat) (tmp : Piece) (i : Nat),
    1 ≤ i → i ≤ dropProbe b tmp fuel → valid b (downBy tmp i) = true := by
  intro fuel
  induction fuel with
  | zero => intro tmp i h1 h2; simp [dropProbe] at h2; omega
  | succ m ih =>
    intro tmp i h1 h2
    simp only [dropProbe] at h2
    split at h2
    case isTrue hval =>
      rcases Nat.lt_or_ge i 2 with hi | hi
      · have : i = 1 := by omega
        subst this
        simpa [downBy] using hval
      · have hstep := ih ⟨tmp.kind, tmp.x, tmp.y + 1, tmp.rotation⟩ (i - 1) (by omega) (by omega)
        have heq : downBy ⟨tmp.kind, tmp.x, tmp.y + 1, tmp.rotation⟩ (i - 1) = downBy tmp i := by
          simp only [downBy, Piece.mk.injEq, true_and, and_true]
          omega
        rwa [heq] at hstep
    case isFalse hval => omega

lemma dropProbe_stop (b : Board) : ∀ (fuel : Nat) (tmp : Piece),
    dropProbe b tmp fuel < fuel →
    valid b (downBy tmp (dropProbe b tmp fuel + 1)) = false := by
  intro fuel
  induction fuel with
  | zero => intro tmp h; simp [dropProbe] at h
  | succ m ih =>
    intro tmp h
    simp only [dropProbe] at h ⊢
    split at h
    case isTrue hval =>
      rw [if_pos hval]
      have hlt : dropProbe b ⟨tmp.kind, tmp.x, tmp.y + 1, tmp.rotation⟩ m < m := by omega
      have hstop := ih ⟨tmp.kind, tmp.x, tmp.y + 1, tmp.rotation⟩ hlt
      have heq : downBy ⟨tmp.kind, tmp.x, tmp.y + 1, tmp.rotation⟩
          (dropProbe b ⟨tmp.kind, tmp.x, tmp.y + 1, tmp.rotation⟩ m + 1) =
          downBy tmp (dropProbe b ⟨tmp.kind, tmp.x, tmp.y + 1, tmp.rotation⟩ m + 1 + 1) := by
        simp only [downBy, Piece.mk.injEq, true_and, and_true]
        push_cast
        ring
      rwa [heq] at hstop
    case isFalse hval =>
      rw [if_neg hval]
      have : downBy tmp 1 = ⟨tmp.kind, tmp.x, tmp.y + 1, tmp.rotation⟩ := by
        simp [downBy]
      rw [show (0 : Nat) + 1 = 1 by rfl, this]
      exact Bool.not_eq_true _ ▸ eq_false_of_ne_true hval

/- The loop of hard_drop_distance computed with probeFuel fuel realises
the exact while-loop semantics: every intermediate one-row step is valid
and the next step after the returned distance is invalid. -/
lemma hard_drop_distance_spec (b : Board) (p : Piece) (h : b.current = some p) :
    (∀ i : Nat, 1 ≤ i → i ≤ hard_drop_distance b → valid b (downBy p i) = true) ∧
    valid b (downBy p (hard_drop_distance b + 1)) = false := by
  have hd : hard_drop_distance b = dropProbe b p (probeFuel b p) := by
    unfold hard_drop_distance
    rw [h]
  constructor
  · intro i h1 h2
    rw [hd] at h2
    exact dropProbe_valid_steps b (probeFuel b p) p i h1 h2
  · rcases Nat.lt_or_ge (dropProbe b p (probeFuel b p)) (probeFuel b p) with hlt | hge
    · rw [hd]
      exact dropProbe_stop b (probeFuel b p) p hlt
    · have heq : dropProbe b p (probeFuel b p) = probeFuel b p :=
        Nat.le_antisymm (dropProbe_le b (probeFuel b p) p) hge
      by_cases hzero : probeFuel b p = 0
      · rw [hd, heq, hzero]
        have hy : (b.rows : Int) + 1 - p.y ≤ 0 := by
          by_contra hpos
          push_neg at hpos
          have : probeFuel b p ≠ 0 := by
            unfold probeFuel
            omega
          exact this hzero
        cases hv : valid b (downBy p 1) with
        | false => rfl
        | true =>
          have := valid_y_lt b (downBy p 1) hv
          simp only [downBy] at this
          omega
      · exfalso
        have h1 : 1 ≤ probeFuel b p := Nat.one_le_iff_ne_zero.mpr hzero
        have hv := dropProbe_valid_steps b (probeFuel b p) p (probeFuel b p) h1 (by omega)
        have hlt2 := valid_y_lt b (downBy p (probeFuel b p)) hv
        simp only [downBy] at hlt2
        have hfe : (probeFuel b p : Int) = (b.rows : Int) + 1 - p.y := by
          unfold probeFuel
          omega
        omega

lemma next_from_bag_snd (b : Board) :
    (next_from_bag b).2.cols = b.cols ∧ (next_from_bag b).2.rows = b.rows ∧
    (next_from_bag b).2.grid = b.grid ∧ (next_from_bag b).2.current = b.current ∧
    (next_from_bag b).2.hold = b.hold ∧ (next_from_bag b).2.can_hold = b.can_hold ∧
    (next_from_bag b).2.next_queue = b.next_queue ∧ (next_from_bag b).2.score = b.score ∧
    (next_from_bag b).2.lines_cleared = b.lines_cleared ∧
    (next_from_bag b).2.level = b.level ∧ (next_from_bag b).2.game_over = b.game_over := by
  unfold next_from_bag
  split <;> exact ⟨rfl, rfl, rfl, rfl, rfl, rfl, rfl, rfl, rfl, rfl, rfl⟩

lemma drawAppend_fields (b : Board) :
    (∃ k, (drawAppend b).next_queue = b.next_queue ++ [k]) ∧
    (drawAppend b).cols = b.cols ∧ (drawAppend b).rows = b.rows ∧
    (drawAppend b).grid = b.grid ∧ (drawAppend b).current = b.current ∧
    (drawAppend b).hold = b.hold ∧ (drawAppend b).can_hold = b.can_hold ∧
    (drawAppend b).score = b.score ∧ (drawAppend b).lines_cleared = b.lines_cleared ∧
    (drawAppend b).level = b.level ∧ (drawAppend b).game_over = b.game_over := by
  obtain ⟨h1, h2, h3, h4, h5, h6, h7, h8, h9, h10, h11⟩ := next_from_bag_snd b
  unfold drawAppend
  dsimp only
  exact ⟨⟨(next_from_bag b).1, by rw [h7]⟩, h1, h2, h3, h4, h5, h6, h8, h9, h10, h11⟩

/- valid reads only the grid and the dimensions. -/
lemma valid_congr (b b' : Board) (hg : b'.grid = b.grid) (hc : b'.cols = b.cols)
    (hr : b'.rows = b.rows) (p : Piece) : valid b' p = valid b p := by
  unfold valid in_bounds cellAt
  rw [hg, hc, hr]

lemma spawnPop_nil (b : Board) (h : b.next_queue = []) : spawnPop b = b := by
  unfold spawnPop
  split
  · rfl
  · rename_i k rest heq
    rw [h] at heq
    cases heq

lemma spawnPop_cons (b : Board) (k : Kind) (rest : List Kind) (h : b.next_queue = k :: rest) :
    spawnPop b = spawnWith k { b with next_queue := rest } := by
  unfold spawnPop
  split
  · rename_i heq
    rw [h] at heq
    cases heq
  · rename_i k' rest' heq
    rw [h] at heq
    injection heq with h1 h2
    subst h1
    subst h2
    rfl

lemma spawnWith_master (kind : Kind) (b : Board) :
    spawnWith kind b =
      (if valid b ⟨kind, (b.cols : Int) / 2 - 2, if kind = Kind.I then -1 else 0, 0⟩ then
        { drawAppend b with current := some ⟨kind, (b.cols : Int) / 2 - 2,
            if kind = Kind.I then -1 else 0, 0⟩, can_hold := true }
      else { drawAppend b with game_over := true }) := by
  obtain ⟨_, d1, d2, d3, _, _, _, _, _, _, _⟩ := drawAppend_fields b
  unfold spawnWith
  dsimp only
  rw [d1, valid_congr b (drawAppend b) d3 d1 d2]

/- One case analysis of spawn covering every use: after the queue guard
and the two bag interactions, the spawned piece is validated against the
unchanged grid and either installed (with can_hold set) or the game
ends; all scalar fields other than current, can_hold and game_over are
preserved, and the queue has lost its front and gained one fresh kind. -/
lemma spawn_master (b : Board) :
    ∃ (kind : Kind) (b2 : Board),
      b2.cols = b.cols ∧ b2.rows = b.rows ∧ b2.grid = b.grid ∧ b2.current = b.current ∧
      b2.hold = b.hold ∧ b2.can_hold = b.can_hold ∧ b2.score = b.score ∧
      b2.lines_cleared = b.lines_cleared ∧ b2.level = b.level ∧
      b2.game_over = b.game_over ∧
      (∃ k2, b2.next_queue = b.next_queue.tail ++ [k2]) ∧
      (∀ k rest, b.next_queue = k :: rest → kind = k) ∧
      spawn b = (if valid b ⟨kind, (b.cols : Int) / 2 - 2,
                    if kind = Kind.I then -1 else 0, 0⟩ then
                  { b2 with current := some ⟨kind, (b.cols : Int) / 2 - 2,
                      if kind = Kind.I then -1 else 0, 0⟩, can_hold := true }
                else { b2 with game_over := true }) := by
  cases hq : b.next_queue with
  | nil =>
    obtain ⟨⟨k1, hk1⟩, e1, e2, e3, e4, e5, e6, e7, e8, e9, e10⟩ := drawAppend_fields b
    have hq1 : (drawAppend b).next_queue = [k1] := by rw [hk1, hq]; rfl
    obtain ⟨⟨k2, hk2⟩, d1, d2, d3, d4, d5, d6, d7, d8, d9, d10⟩ :=
      drawAppend_fields { drawAppend b with next_queue := [] }
    dsimp only [List.nil_append] at hk2 d1 d2 d3 d4 d5 d6 d7 d8 d9 d10
    refine ⟨k1, drawAppend { drawAppend b with next_queue := [] },
      ?_, ?_, ?_, ?_, ?_, ?_, ?_, ?_, ?_, ?_, ?_, ?_, ?_⟩
    · dsimp only
      exact d1.trans e1
    · dsimp only
      exact d2.trans e2
    · dsimp only
      exact d3.trans e3
    · dsimp only
      exact d4.trans e4
    · dsimp only
      exact d5.trans e5
    · dsimp only
      exact d6.trans e6
    · dsimp only
      exact d7.trans e7
    · dsimp only
      exact d8.trans e8
    · dsimp only
      exact d9.trans e9
    · dsimp only
      exact d10.trans e10
    · refine ⟨k2, ?_⟩
      dsimp only
      rw [hk2]
      rfl
    · intro k rest hkr
      cases hkr
    · unfold spawn
      rw [hq]
      rw [if_pos (show (List.isEmpty ([] : List Kind)) = true from rfl)]
      rw [spawnPop_cons (drawAppend b) k1 [] hq1]
      rw [spawnWith_master k1 { drawAppend b with next_queue := [] }]
      rw [valid_congr b { drawAppend b with next_queue := [] } e3 e1 e2]
      dsimp only
      rw [e1]
  | cons k rest =>
    obtain ⟨⟨k2, hk2⟩, d1, d2, d3, d4, d5, d6, d7, d8, d9, d10⟩ :=
      drawAppend_fields { b with next_queue := rest }
    dsimp only at hk2 d1 d2 d3 d4 d5 d6 d7 d8 d9 d10
    refine ⟨k, drawAppend { b with next_queue := rest },
      ?_, ?_, ?_, ?_, ?_, ?_, ?_, ?_, ?_, ?_, ?_, ?_, ?_⟩
    · dsimp only
      exact d1
    · dsimp only
      exact d2
    · dsimp only
      exact d3
    · dsimp only
      exact d4
    · dsimp only
      exact d5
    · dsimp only
      exact d6
    · dsimp only
      exact d7
    · dsimp only
      exact d8
    · dsimp only
      exact d9
    · dsimp only
      exact d10
    · refine ⟨k2, ?_⟩
      dsimp only
      rw [hk2]
      rfl
    · intro k' rest' hkr
      injection hkr with h1 h2
    · unfold spawn
      rw [hq]
      rw [if_neg (show ¬(List.isEmpty (k :: rest)) = true by simp)]
      rw [spawnPop_cons b k rest hq]
      rw [spawnWith_master k { b with next_queue := rest }]
      rw [valid_congr b { b with next_queue := rest } rfl rfl rfl]

lemma filter_partition {α : Type} (l : List α) (p : α → Bool) :
    (l.filter p).length + (l.filter (fun a => !(p a))).length = l.length :=
  (List.length_eq_length_filter_add p).symm

/- A row is full exactly when it is not kept by the survivor filter. -/
lemma full_not_survivor (row : List (Option Color)) :
    (row.all fun c => c.isSome) = !(row.any fun c => c.isNone) := by
  induction row with
  | nil => rfl
  | cons c cs ih => cases c <;> simp [List.all_cons, List.any_cons, ih]

lemma survivors_length (g : Grid) :
    (g.filter (fun row => row.any fun c => c.isNone)).length + fullCount g = g.length := by
  have h := filter_partition g (fun row => row.any fun c => c.isNone)
  unfold fullCount
  have hfun : (fun row : List (Option Color) => row.all fun c => c.isSome) =
      (fun row => !(row.any fun c => c.isNone)) := by
    funext row
    exact full_not_survivor row
  rw [hfun]
  omega

/- Everything _clear_lines_efficient does, in terms of the number of
full rows of the incoming grid. -/
lemma clear_lines_spec (b : Board) (hlen : b.grid.length = b.rows) :
    (clear_lines_efficient b).grid =
      List.replicate (fullCount b.grid) (emptyRow b.cols) ++
        b.grid.filter (fun row => row.any fun c => c.isNone) ∧
    (clear_lines_efficient b).score = b.score + lineScores (fullCount b.grid) * b.level ∧
    (clear_lines_efficient b).lines_cleared = b.lines_cleared + fullCount b.grid ∧
    (clear_lines_efficient b).level =
      (if 0 < fullCount b.grid then 1 + (b.lines_cleared + fullCount b.grid) / 10
       else b.level) ∧
    (clear_lines_efficient b).cols = b.cols ∧ (clear_lines_efficient b).rows = b.rows ∧
    (clear_lines_efficient b).current = b.current ∧
    (clear_lines_efficient b).game_over = b.game_over ∧
    (clear_lines_efficient b).next_queue = b.next_queue ∧
    (clear_lines_efficient b).can_hold = b.can_hold ∧
    (clear_lines_efficient b).hold = b.hold ∧
    (clear_lines_efficient b).bag = b.bag ∧ (clear_lines_efficient b).rng = b.rng ∧
    (clear_lines_efficient b).rngIdx = b.rngIdx := by
  have hpart := survivors_length b.grid
  have hcl : b.rows - (b.grid.filter (fun row => row.any fun c => c.isNone)).length =
      fullCount b.grid := by omega
  unfold clear_lines_efficient
  dsimp only
  rw [hcl]
  by_cases hfc : 0 < fullCount b.grid
  · rw [if_pos hfc]
    unfold apply_scoring
    dsimp only
    rw [if_pos hfc]
    exact ⟨rfl, rfl, rfl, rfl, rfl, rfl, rfl, rfl, rfl, rfl, rfl, rfl, rfl, rfl⟩
  · rw [if_neg hfc]
    have hfc0 : fullCount b.grid = 0 := by omega
    have hsurv : b.grid.filter (fun row => row.any fun c => c.isNone) = b.grid := by
      apply (List.filter_sublist b.grid).eq_of_length
      omega
    rw [if_neg hfc, hfc0]
    refine ⟨?_, by simp [lineScores], by omega, rfl, rfl, rfl, rfl, rfl, rfl, rfl, rfl,
      rfl, rfl, rfl⟩
    rw [hsurv]
    rfl

lemma setCell_length (g : Grid) (x y : Int) (c : Color) :
    (setCell g x y c).length = g.length := by
  unfold setCell
  exact List.length_set g _ _

lemma lockStep_eq (color : Color) (acc : Grid × Bool) (cell : Int × Int) :
    lockStep color acc cell =
      if cell.2 < 0 then (acc.1, true) else (setCell acc.1 cell.1 cell.2 color, acc.2) := rfl

lemma lockFold_fst_length (color : Color) :
    ∀ (cells : List (Int × Int)) (g : Grid) (go : Bool),
      ((cells.foldl (lockStep color) (g, go)).1).length = g.length := by
  intro cells
  induction cells with
  | nil => intro g go; rfl
  | cons c cs ih =>
    intro g go
    rw [List.foldl_cons, lockStep_eq]
    by_cases hc : c.2 < 0
    · rw [if_pos hc]
      exact ih g true
    · rw [if_neg hc]
      rw [ih (setCell g c.1 c.2 color) go]
      exact setCell_length g c.1 c.2 color

lemma lockFold_snd_mono (color : Color) :
    ∀ (cells : List (Int × Int)) (g : Grid),
      ((cells.foldl (lockStep color) (g, true)).2) = true := by
  intro cells
  induction cells with
  | nil => intro g; rfl
  | cons c cs ih =>
    intro g
    rw [List.foldl_cons, lockStep_eq]
    by_cases hc : c.2 < 0
    · rw [if_pos hc]
      exact ih g
    · rw [if_neg hc]
      exact ih (setCell g c.1 c.2 color)

lemma try_move_none (dx dy : Int) (b : Board) (h : b.current = none) :
    try_move dx dy b = (false, b) := by
  unfold try_move
  rw [h]

lemma try_move_some (dx dy : Int) (b : Board) (cur : Piece) (h : b.current = some cur) :
    try_move dx dy b =
      (if valid b ⟨cur.kind, cur.x + dx, cur.y + dy, cur.rotation⟩ then
        (true, { b with current := some ⟨cur.kind, cur.x + dx, cur.y + dy, cur.rotation⟩ })
      else (false, b)) := by
  unfold try_move
  rw [h]

lemma try_move_snd_fields (dx dy : Int) (b : Board) :
    ((try_move dx dy b).2).grid = b.grid ∧ ((try_move dx dy b).2).cols = b.cols ∧
    ((try_move dx dy b).2).rows = b.rows ∧ ((try_move dx dy b).2).score = b.score ∧
    ((try_move dx dy b).2).lines_cleared = b.lines_cleared ∧
    ((try_move dx dy b).2).level = b.level ∧
    ((try_move dx dy b).2).game_over = b.game_over ∧
    ((try_move dx dy b).2).next_queue = b.next_queue ∧
    ((try_move dx dy b).2).hold = b.hold ∧
    ((try_move dx dy b).2).can_hold = b.can_hold := by
  cases hc : b.current with
  | none =>
    rw [try_move_none dx dy b hc]
    exact ⟨rfl, rfl, rfl, rfl, rfl, rfl, rfl, rfl, rfl, rfl⟩
  | some cur =>
    rw [try_move_some dx dy b cur hc]
    split <;> exact ⟨rfl, rfl, rfl, rfl, rfl, rfl, rfl, rfl, rfl, rfl⟩

lemma try_move_false (dx dy : Int) (b : Board) (h : (try_move dx dy b).1 = false) :
    (try_move dx dy b).2 = b := by
  cases hc : b.current with
  | none => rw [try_move_none dx dy b hc]
  | some cur =>
    rw [try_move_some dx dy b cur hc] at h ⊢
    split at h
    · cases h
    · rw [if_neg (by assumption)]

lemma try_move_keeps_some (dx dy : Int) (b : Board) (cur : Piece) (h : b.current = some cur) :
    ((try_move dx dy b).2).current.isSome = true := by
  rw [try_move_some dx dy b cur h]
  split
  · rfl
  · rw [h]
    rfl

lemma tryKicks_eq_find (b : Board) (rotated : Piece) : ∀ ks : List (Int × Int),
    tryKicks b rotated ks = (ks.map (kickCand rotated)).find? (fun c => valid b c) := by
  intro ks
  induction ks with
  | nil => rfl
  | cons k rest ih =>
    simp only [tryKicks, List.map_cons]
    by_cases h : valid b (kickCand rotated k) = true
    · rw [if_pos h, List.find?_cons_of_pos _ h]
    · rw [if_neg h, List.find?_cons_of_neg _ (by simpa using h), ih]

lemma try_rotate_none (dr : Int) (b : Board) (h : b.current = none) :
    try_rotate dr b = (false, b) := by
  unfold try_rotate
  rw [h]

lemma try_rotate_some (dr : Int) (b : Board) (cur : Piece) (h : b.current = some cur) :
    try_rotate dr b =
      (match tryKicks b (cur.rotated dr) WALL_KICKS with
       | some cand => (true, { b with current := some cand })
       | none => (false, b)) := by
  unfold try_rotate
  rw [h]

lemma try_rotate_snd_fields (dr : Int) (b : Board) :
    ((try_rotate dr b).2).grid = b.grid ∧ ((try_rotate dr b).2).cols = b.cols ∧
    ((try_rotate dr b).2).rows = b.rows ∧ ((try_rotate dr b).2).score = b.score ∧
    ((try_rotate dr b).2).lines_cleared = b.lines_cleared ∧
    ((try_rotate dr b).2).level = b.level ∧
    ((try_rotate dr b).2).game_over = b.game_over ∧
    ((try_rotate dr b).2).next_queue = b.next_queue ∧
    ((try_rotate dr b).2).hold = b.hold ∧
    ((try_rotate dr b).2).can_hold = b.can_hold := by
  cases hc : b.current with
  | none =>
    rw [try_rotate_none dr b hc]
    exact ⟨rfl, rfl, rfl, rfl, rfl, rfl, rfl, rfl, rfl, rfl⟩
  | some cur =>
    rw [try_rotate_some dr b cur hc]
    cases tryKicks b (cur.rotated dr) WALL_KICKS <;>
      exact ⟨rfl, rfl, rfl, rfl, rfl, rfl, rfl, rfl, rfl, rfl⟩

lemma soft_drop_eq (b : Board) :
    soft_drop b = (if (try_move 0 1 b).1 then
      (true, { (try_move 0 1 b).2 with score := ((try_move 0 1 b).2).score + 1 })
    else try_move 0 1 b) := rfl

lemma lock_piece_none (b : Board) (h : b.current = none) : lock_piece b = b := by
  unfold lock_piece
  rw [h]

lemma lock_piece_some (b : Board) (cur : Piece) (h : b.current = some cur) :
    lock_piece b = spawn (clear_lines_efficient (lockedBoard b cur)) := by
  unfold lock_piece lockedBoard
  rw [h]

lemma hard_drop_none (b : Board) (h : b.current = none) : hard_drop b = b := by
  unfold hard_drop
  rw [h]

lemma hard_drop_some (b : Board) (cur : Piece) (h : b.current = some cur) :
    hard_drop b =
      { lock_piece { b with current := some ⟨cur.kind, cur.x,
            cur.y + (hard_drop_distance b : Int), cur.rotation⟩ } with
        score := (lock_piece { b with current := some ⟨cur.kind, cur.x,
            cur.y + (hard_drop_distance b : Int), cur.rotation⟩ }).score +
          2 * hard_drop_distance b } := by
  unfold hard_drop
  rw [h]

lemma hold_piece_nocur (b : Board) (h : b.current = none) : hold_piece b = b := by
  unfold hold_piece
  rw [h]

lemma hold_piece_nocan (b : Board) (cur : Piece) (h : b.current = some cur)
    (hc : b.can_hold = false) : hold_piece b = b := by
  unfold hold_piece
  rw [h, hc]
  rfl

lemma hold_piece_tohold (b : Board) (cur : Piece) (h : b.current = some cur)
    (hc : b.can_hold = true) (hh : b.hold = none) :
    hold_piece b = { spawn { b with hold := some cur.kind } with can_hold := false } := by
  unfold hold_piece
  rw [h, hc, hh]
  rfl

lemma hold_piece_swap (b : Board) (cur : Piece) (hk : Kind) (h : b.current = some cur)
    (hc : b.can_hold = true) (hh : b.hold = some hk) :
    hold_piece b =
      { (if valid { b with current := some (Piece.mk hk ((b.cols : Int) / 2 - 2) 0 0),
                           hold := some cur.kind }
              (Piece.mk hk ((b.cols : Int) / 2 - 2) 0 0) then
          ({ b with current := some (Piece.mk hk ((b.cols : Int) / 2 - 2) 0 0),
                    hold := some cur.kind } : Board)
        else
          { b with current := some (Piece.mk hk ((b.cols : Int) / 2 - 2) 0 0),
                   hold := some cur.kind, game_over := true }) with can_hold := false } := by
  unfold hold_piece
  rw [h, hc, hh]
  rfl

lemma ghost_cells_none (b : Board) (h : b.current = none) : ghost_cells b = [] := by
  unfold ghost_cells
  rw [h]

lemma spawn_post (b : Board) :
    (spawn b).current.isSome = true ∨ (spawn b).game_over = true := by
  obtain ⟨kind, b2, hcols, hrows, hgrid, hcur, hhold, hch, hscore, hlines, hlevel, hgo,
    hq, hk, hsp⟩ := spawn_master b
  rw [hsp]
  by_cases hv : valid b ⟨kind, (b.cols : Int) / 2 - 2, if kind = Kind.I then -1 else 0, 0⟩ = true
  · rw [if_pos hv]
    left
    rfl
  · rw [if_neg hv]
    right
    rfl

lemma spawn_game_over_mono (b : Board) (h : b.game_over = true) :
    (spawn b).game_over = true := by
  obtain ⟨kind, b2, hcols, hrows, hgrid, hcur, hhold, hch, hscore, hlines, hlevel, hgo,
    hq, hk, hsp⟩ := spawn_master b
  rw [hsp]
  by_cases hv : valid b ⟨kind, (b.cols : Int) / 2 - 2, if kind = Kind.I then -1 else 0, 0⟩ = true
  · rw [if_pos hv]
    show b2.game_over = true
    rw [hgo]
    exact h
  · rw [if_neg hv]

lemma spawn_pres (b : Board) :
    (spawn b).score = b.score ∧ (spawn b).lines_cleared = b.lines_cleared ∧
    (spawn b).level = b.level ∧ (spawn b).grid = b.grid ∧
    (spawn b).cols = b.cols ∧ (spawn b).rows = b.rows ∧ (spawn b).hold = b.hold := by
  obtain ⟨kind, b2, hcols, hrows, hgrid, hcur, hhold, hch, hscore, hlines, hlevel, hgo,
    hq, hk, hsp⟩ := spawn_master b
  rw [hsp]
  by_cases hv : valid b ⟨kind, (b.cols : Int) / 2 - 2, if kind = Kind.I then -1 else 0, 0⟩ = true
  · rw [if_pos hv]
    exact ⟨hscore, hlines, hlevel, hgrid, hcols, hrows, hhold⟩
  · rw [if_neg hv]
    exact ⟨hscore, hlines, hlevel, hgrid, hcols, hrows, hhold⟩

lemma spawn_queue_length (b : Board) (h1 : 1 ≤ b.next_queue.length) :
    (spawn b).next_queue.length = b.next_queue.length := by
  obtain ⟨kind, b2, hcols, hrows, hgrid, hcur, hhold, hch, hscore, hlines, hlevel, hgo,
    ⟨k2, hq2⟩, hk, hsp⟩ := spawn_master b
  have hlen2 : b2.next_queue.length = b.next_queue.length := by
    rw [hq2, List.length_append, List.length_tail]
    simp only [List.length_singleton]
    omega
  rw [hsp]
  by_cases hv : valid b ⟨kind, (b.cols : Int) / 2 - 2, if kind = Kind.I then -1 else 0, 0⟩ = true
  · rw [if_pos hv]
    exact hlen2
  · rw [if_neg hv]
    exact hlen2

/- clear_lines_efficient never touches the piece, queue, hold or flags. -/
lemma clear_lines_fields (b : Board) :
    (clear_lines_efficient b).game_over = b.game_over ∧
    (clear_lines_efficient b).current = b.current ∧
    (clear_lines_efficient b).next_queue = b.next_queue ∧
    (clear_lines_efficient b).can_hold = b.can_hold ∧
    (clear_lines_efficient b).hold = b.hold ∧
    (clear_lines_efficient b).cols = b.cols ∧
    (clear_lines_efficient b).rows = b.rows := by
  unfold clear_lines_efficient apply_scoring
  dsimp only
  split <;> exact ⟨rfl, rfl, rfl, rfl, rfl, rfl, rfl⟩

/- The score, line and level bookkeeping of a lock, in terms of the
number of full rows of the grid after the piece's cells are written. -/
lemma lock_effects (b : Board) (cur : Piece) (h : b.current = some cur)
    (hlen : b.grid.length = b.rows) :
    (lock_piece b).score = b.score +
      lineScores (fullCount (lockFold b.grid b.game_over cur).1) * b.level ∧
    (lock_piece b).lines_cleared =
      b.lines_cleared + fullCount (lockFold b.grid b.game_over cur).1 ∧
    (lock_piece b).level =
      (if 0 < fullCount (lockFold b.grid b.game_over cur).1
       then 1 + (b.lines_cleared + fullCount (lockFold b.grid b.game_over cur).1) / 10
       else b.level) := by
  rw [lock_piece_some b cur h]
  have hlen1 : (lockedBoard b cur).grid.length = (lockedBoard b cur).rows := by
    show (lockFold b.grid b.game_over cur).1.length = b.rows
    unfold lockFold
    rw [lockFold_fst_length]
    exact hlen
  obtain ⟨hg, hs, hl, hlvl, _, _, _, _, _, _, _, _, _, _⟩ :=
    clear_lines_spec (lockedBoard b cur) hlen1
  obtain ⟨ps, pl, plvl, _, _, _, _⟩ := spawn_pres (clear_lines_efficient (lockedBoard b cur))
  refine ⟨?_, ?_, ?_⟩
  · rw [ps, hs]
    rfl
  · rw [pl, hl]
    rfl
  · rw [plvl, hlvl]
    rfl

lemma lock_post (b : Board) (cur : Piece) (h : b.current = some cur) :
    (lock_piece b).current.isSome = true ∨ (lock_piece b).game_over = true := by
  rw [lock_piece_some b cur h]
  exact spawn_post _

lemma lock_game_over_mono (b : Board) (hgo : b.game_over = true) :
    (lock_piece b).game_over = true := by
  cases hc : b.current with
  | none =>
    rw [lock_piece_none b hc]
    exact hgo
  | some cur =>
    rw [lock_piece_some b cur hc]
    apply spawn_game_over_mono
    rw [(clear_lines_fields _).1]
    show (lockFold b.grid b.game_over cur).2 = true
    rw [hgo]
    unfold lockFold
    exact lockFold_snd_mono _ _ _

/- ------------------------------------------------------------------ -/
/- Claim theorems                                                     -/
/- ------------------------------------------------------------------ -/

/-- C1: for every grid configuration (well formed: the grid has rows
rows each of cols cells), the line-clear operation produces a new grid
of exactly cleared all-empty rows prepended, followed by every row that
was not full in their original top-to-bottom order, where cleared is the
number of full rows; grid height and width are unchanged, and
lines_cleared increases by exactly cleared. -/
theorem C1_clear_lines (b : Board) (hlen : b.grid.length = b.rows)
    (hw : ∀ r ∈ b.grid, r.length = b.cols) :
    (clear_lines_efficient b).grid =
      List.replicate (fullCount b.grid) (emptyRow b.cols) ++
        b.grid.filter (fun row => row.any fun c => c.isNone) ∧
    (clear_lines_efficient b).grid.length = b.grid.length ∧
    (∀ r ∈ (clear_lines_efficient b).grid, r.length = b.cols) ∧
    (clear_lines_efficient b).lines_cleared = b.lines_cleared + fullCount b.grid := by
  obtain ⟨hg, _, hl, _, _, _, _, _, _, _, _, _, _, _⟩ := clear_lines_spec b hlen
  refine ⟨hg, ?_, ?_, hl⟩
  · rw [hg, List.length_append, List.length_replicate]
    have := survivors_length b.grid
    omega
  · intro r hr
    rw [hg] at hr
    rcases List.mem_append.mp hr with hr | hr
    · rw [List.eq_of_mem_replicate hr]
      exact List.length_replicate b.cols none
    · exact hw r (List.mem_of_mem_filter hr)

/-- C1 witness: the theorem applied to the concrete 2x3 board bw1 whose
middle row is full. -/
theorem C1_clear_lines_witness :
    (clear_lines_efficient bw1).grid =
      List.replicate (fullCount bw1.grid) (emptyRow bw1.cols) ++
        bw1.grid.filter (fun row => row.any fun c => c.isNone) ∧
    (clear_lines_efficient bw1).grid.length = bw1.grid.length ∧
    (∀ r ∈ (clear_lines_efficient bw1).grid, r.length = bw1.cols) ∧
    (clear_lines_efficient bw1).lines_cleared = bw1.lines_cleared + fullCount bw1.grid :=
  C1_clear_lines bw1 rfl (by decide)

/-- C2: at level L a lock that completes 1, 2, 3 or 4 rows adds exactly
100L, 300L, 500L or 800L to the score (any other full-row count adds 0,
per the score table); a successful soft drop adds exactly 1 point; a
hard drop of distance d adds exactly 2d plus the line-clear score of the
resulting lock; and after every line-clear event the level equals
1 + lines_cleared / 10. -/
theorem C2_scoring :
    (∀ (b : Board) (cur : Piece), b.current = some cur → b.grid.length = b.rows →
      (lock_piece b).score =
        b.score + lineScores (fullCount (lockFold b.grid b.game_over cur).1) * b.level) ∧
    (lineScores 1 = 100 ∧ lineScores 2 = 300 ∧ lineScores 3 = 500 ∧ lineScores 4 = 800 ∧
      lineScores 0 = 0 ∧ ∀ c, 4 < c → lineScores c = 0) ∧
    (∀ b : Board, ((soft_drop b).2).score =
      b.score + (if (soft_drop b).1 then 1 else 0)) ∧
    (∀ (b : Board) (cur : Piece), b.current = some cur → b.grid.length = b.rows →
      (hard_drop b).score = b.score + 2 * hard_drop_distance b +
        lineScores (fullCount (lockFold b.grid b.game_over
          ⟨cur.kind, cur.x, cur.y + (hard_drop_distance b : Int), cur.rotation⟩).1) *
          b.level) ∧
    (∀ (b : Board) (cur : Piece), b.current = some cur → b.grid.length = b.rows →
      0 < fullCount (lockFold b.grid b.game_over cur).1 →
      (lock_piece b).level = 1 + (lock_piece b).lines_cleared / 10) := by
  refine ⟨?_, ⟨rfl, rfl, rfl, rfl, rfl, ?_⟩, ?_, ?_, ?_⟩
  · intro b cur h hlen
    exact (lock_effects b cur h hlen).1
  · intro c hc
    obtain ⟨n, rfl⟩ : ∃ n, c = n + 5 := ⟨c - 5, by omega⟩
    rfl
  · intro b
    rw [soft_drop_eq]
    obtain ⟨_, _, _, hscore, _, _, _, _, _, _⟩ := try_move_snd_fields 0 1 b
    by_cases hm : (try_move 0 1 b).1 = true
    · simp only [hm, if_true]
      rw [hscore]
    · have hm' : (try_move 0 1 b).1 = false := eq_false_of_ne_true hm
      simp only [hm', Bool.false_eq_true, if_false]
      rw [hscore]
      omega
  · intro b cur h hlen
    rw [hard_drop_some b cur h]
    have h1 : ({ b with current := some ⟨cur.kind, cur.x,
        cur.y + (hard_drop_distance b : Int), cur.rotation⟩ } : Board).current =
        some ⟨cur.kind, cur.x, cur.y + (hard_drop_distance b : Int), cur.rotation⟩ := rfl
    obtain ⟨hs, _, _⟩ := lock_effects _ _ h1 hlen
    dsimp only
    rw [hs]
    dsimp only
    omega
  · intro b cur h hlen hfc
    obtain ⟨_, hl, hlvl⟩ := lock_effects b cur h hlen
    rw [hlvl, hl, if_pos hfc]

/-- C2 witness: the theorem applied to the concrete 2x2 board bw2, whose
current O piece fills the whole grid when locked (a 2-line clear). -/
theorem C2_scoring_witness :
    ((lock_piece bw2).score = bw2.score +
      lineScores (fullCount (lockFold bw2.grid bw2.game_over
        (Piece.mk Kind.O (-1) 0 0)).1) * bw2.level) ∧
    (((soft_drop bw2).2).score = bw2.score + (if (soft_drop bw2).1 then 1 else 0)) ∧
    ((hard_drop bw2).score = bw2.score + 2 * hard_drop_distance bw2 +
      lineScores (fullCount (lockFold bw2.grid bw2.game_over
        ⟨Kind.O, -1, 0 + (hard_drop_distance bw2 : Int), 0⟩).1) * bw2.level) ∧
    (0 < fullCount (lockFold bw2.grid bw2.game_over (Piece.mk Kind.O (-1) 0 0)).1 ∧
      (lock_piece bw2).level = 1 + (lock_piece bw2).lines_cleared / 10) :=
  ⟨C2_scoring.1 bw2 (Piece.mk Kind.O (-1) 0 0) rfl rfl,
   C2_scoring.2.2.1 bw2,
   C2_scoring.2.2.2.1 bw2 (Piece.mk Kind.O (-1) 0 0) rfl rfl,
   by decide,
   C2_scoring.2.2.2.2 bw2 (Piece.mk Kind.O (-1) 0 0) rfl rfl (by decide)⟩

/-- C3: a rotation attempt tries the kick offsets in exactly the order
(0,0), (+1,0), (-1,0), (0,-1), (+2,0), (-2,0) applied to the rotated
candidate's anchor, commits the first offset yielding a valid piece and
returns true; if none is valid it returns false with the state
unchanged; in particular if (0,0) is blocked and (+1,0) is free the
committed piece is the (+1,0)-shifted one. -/
theorem C3_kick_order (b : Board) (cur : Piece) (dr : Int) (h : b.current = some cur) :
    (∀ cand : Piece,
      (([((0 : Int), (0 : Int)), (1, 0), (-1, 0), (0, -1), (2, 0), (-2, 0)].map
        (kickCand (cur.rotated dr))).find? (fun c => valid b c)) = some cand →
      try_rotate dr b = (true, { b with current := some cand })) ∧
    ((([((0 : Int), (0 : Int)), (1, 0), (-1, 0), (0, -1), (2, 0), (-2, 0)].map
        (kickCand (cur.rotated dr))).find? (fun c => valid b c)) = none →
      try_rotate dr b = (false, b)) ∧
    (valid b (kickCand (cur.rotated dr) (0, 0)) = false →
     valid b (kickCand (cur.rotated dr) (1, 0)) = true →
      try_rotate dr b = (true, { b with current := some (kickCand (cur.rotated dr) (1, 0)) })) := by
  have hk : tryKicks b (cur.rotated dr) WALL_KICKS =
      (([((0 : Int), (0 : Int)), (1, 0), (-1, 0), (0, -1), (2, 0), (-2, 0)].map
        (kickCand (cur.rotated dr))).find? (fun c => valid b c)) :=
    tryKicks_eq_find b (cur.rotated dr) WALL_KICKS
  have key : ∀ cand : Piece,
      (([((0 : Int), (0 : Int)), (1, 0), (-1, 0), (0, -1), (2, 0), (-2, 0)].map
        (kickCand (cur.rotated dr))).find? (fun c => valid b c)) = some cand →
      try_rotate dr b = (true, { b with current := some cand }) := by
    intro cand hc
    rw [try_rotate_some dr b cur h, hk, hc]
  refine ⟨key, ?_, ?_⟩
  · intro hc
    rw [try_rotate_some dr b cur h, hk, hc]
  · intro h0 h1
    apply key
    rw [List.map_cons, List.find?_cons_of_neg _
        (show ¬valid b (kickCand (cur.rotated dr) (0, 0)) = true by
          rw [h0]
          exact Bool.false_ne_true),
      List.map_cons, List.find?_cons_of_pos _ h1]

/-- C3 witness: on the concrete board bw3 the clockwise-rotated T piece
is blocked at offset (0,0) and committed at (+1,0); on the fully
occupied board bw3b every kick fails and the rotation is rejected. -/
theorem C3_kick_order_witness :
    (try_rotate 1 bw3 = (true, { bw3 with current := some (Piece.mk Kind.T 1 0 1) })) ∧
    (try_rotate 1 bw3b = (false, bw3b)) :=
  ⟨(C3_kick_order bw3 (Piece.mk Kind.T 0 0 0) 1 rfl).2.2 (by decide) (by decide),
   (C3_kick_order bw3b (Piece.mk Kind.T 0 0 0) 1 rfl).2.1 (by decide)⟩

lemma soft_drop_snd_current (b : Board) :
    ((soft_drop b).2).current = ((try_move 0 1 b).2).current ∧
    ((soft_drop b).2).game_over = ((try_move 0 1 b).2).game_over := by
  rw [soft_drop_eq]
  by_cases hm : (try_move 0 1 b).1 = true
  · rw [if_pos hm]
    exact ⟨rfl, rfl⟩
  · rw [if_neg hm]
    exact ⟨rfl, rfl⟩

/-- C4 counterexample: on the concrete reachable-shaped board bw4 (a
current piece is present and game over is false, so exactly one of the
two held before), a completed hold operation leaves BOTH a current piece
present AND the game-over flag true: the swapped-in O piece collides at
the spawn anchor, hold_piece sets game over and still installs the
piece as current.  This refutes the claimed never-both alternative. -/
theorem C4_counterexample :
    (bw4.current.isSome = true ∧ bw4.game_over = false) ∧
    (hold_piece bw4).current.isSome = true ∧ (hold_piece bw4).game_over = true := by
  refine ⟨⟨rfl, rfl⟩, ?_, ?_⟩ <;> decide

/-- C4 amended: after every completed public operation at least one of
(current piece present), (game-over true) holds, provided at least one
held before — never neither.  The original never-both half is false: a
hold-swap collision (see the counterexample) leaves both. -/
theorem C4_amended (b : Board) (dx dy dr : Int)
    (h : b.current.isSome = true ∨ b.game_over = true) :
    (((try_move dx dy b).2).current.isSome = true ∨
      ((try_move dx dy b).2).game_over = true) ∧
    (((try_rotate dr b).2).current.isSome = true ∨
      ((try_rotate dr b).2).game_over = true) ∧
    (((soft_drop b).2).current.isSome = true ∨ ((soft_drop b).2).game_over = true) ∧
    ((spawn b).current.isSome = true ∨ (spawn b).game_over = true) ∧
    ((lock_piece b).current.isSome = true ∨ (lock_piece b).game_over = true) ∧
    ((hard_drop b).current.isSome = true ∨ (hard_drop b).game_over = true) ∧
    ((hold_piece b).current.isSome = true ∨ (hold_piece b).game_over = true) := by
  have hgo_of_none : b.current = none → b.game_over = true := by
    intro hc
    rcases h with h | h
    · rw [hc] at h
      cases h
    · exact h
  have Htm : ∀ dx' dy' : Int, ((try_move dx' dy' b).2).current.isSome = true ∨
      ((try_move dx' dy' b).2).game_over = true := by
    intro dx' dy'
    cases hc : b.current with
    | none =>
      right
      rw [try_move_none dx' dy' b hc]
      exact hgo_of_none hc
    | some cur =>
      left
      exact try_move_keeps_some dx' dy' b cur hc
  refine ⟨Htm dx dy, ?_, ?_, spawn_post b, ?_, ?_, ?_⟩
  · cases hc : b.current with
    | none =>
      right
      rw [try_rotate_none dr b hc]
      exact hgo_of_none hc
    | some cur =>
      left
      rw [try_rotate_some dr b cur hc]
      cases htk : tryKicks b (cur.rotated dr) WALL_KICKS with
      | some cand => rfl
      | none =>
        show b.current.isSome = true
        rw [hc]
        rfl
  · obtain ⟨hcur, hgo⟩ := soft_drop_snd_current b
    rw [hcur, hgo]
    exact Htm 0 1
  · cases hc : b.current with
    | none =>
      right
      rw [lock_piece_none b hc]
      exact hgo_of_none hc
    | some cur => exact lock_post b cur hc
  · cases hc : b.current with
    | none =>
      right
      rw [hard_drop_none b hc]
      exact hgo_of_none hc
    | some cur =>
      rw [hard_drop_some b cur hc]
      exact lock_post _ _ rfl
  · cases hc : b.current with
    | none =>
      right
      rw [hold_piece_nocur b hc]
      exact hgo_of_none hc
    | some cur =>
      by_cases hch : b.can_hold = true
      · cases hh : b.hold with
        | none =>
          rw [hold_piece_tohold b cur hc hch hh]
          exact spawn_post _
        | some hk =>
          left
          rw [hold_piece_swap b cur hk hc hch hh]
          by_cases hv : valid { b with current := some (Piece.mk hk ((b.cols : Int) / 2 - 2) 0 0), hold := some cur.kind } (Piece.mk hk ((b.cols : Int) / 2 - 2) 0 0) = true
          · rw [if_pos hv]
            rfl
          · rw [if_neg hv]
            rfl
      · left
        rw [hold_piece_nocan b cur hc (eq_false_of_ne_true hch), hc]
        rfl

/-- C4 witness for the amended theorem: applied to the concrete board
bw4, on which a current piece is present. -/
theorem C4_amended_witness :
    (((try_move 0 1 bw4).2).current.isSome = true ∨
      ((try_move 0 1 bw4).2).game_over = true) ∧
    (((try_rotate 1 bw4).2).current.isSome = true ∨
      ((try_rotate 1 bw4).2).game_over = true) ∧
    (((soft_drop bw4).2).current.isSome = true ∨ ((soft_drop bw4).2).game_over = true) ∧
    ((spawn bw4).current.isSome = true ∨ (spawn bw4).game_over = true) ∧
    ((lock_piece bw4).current.isSome = true ∨ (lock_piece bw4).game_over = true) ∧
    ((hard_drop bw4).current.isSome = true ∨ (hard_drop bw4).game_over = true) ∧
    ((hold_piece bw4).current.isSome = true ∨ (hold_piece bw4).game_over = true) :=
  C4_amended bw4 0 1 1 (Or.inl rfl)

lemma hard_drop_game_over_mono (b : Board) (hgo : b.game_over = true) :
    (hard_drop b).game_over = true := by
  cases hc : b.current with
  | none =>
    rw [hard_drop_none b hc]
    exact hgo
  | some cur =>
    rw [hard_drop_some b cur hc]
    exact lock_game_over_mono _ hgo

lemma hold_game_over_mono (b : Board) (hgo : b.game_over = true) :
    (hold_piece b).game_over = true := by
  cases hc : b.current with
  | none =>
    rw [hold_piece_nocur b hc]
    exact hgo
  | some cur =>
    by_cases hch : b.can_hold = true
    · cases hh : b.hold with
      | none =>
        rw [hold_piece_tohold b cur hc hch hh]
        exact spawn_game_over_mono _ hgo
      | some hk =>
        rw [hold_piece_swap b cur hk hc hch hh]
        by_cases hv : valid { b with current := some (Piece.mk hk ((b.cols : Int) / 2 - 2) 0 0), hold := some cur.kind } (Piece.mk hk ((b.cols : Int) / 2 - 2) 0 0) = true
        · rw [if_pos hv]
          exact hgo
        · rw [if_neg hv]
    · rw [hold_piece_nocan b cur hc (eq_false_of_ne_true hch)]
      exact hgo

/-- C5: while the game-over flag is true every game-level key command
and every gravity update is a no-op leaving the state unchanged, and
game-over is monotonic: no board operation ever resets it to false. -/
theorem C5_game_over_noops (b : Board) (g : GameState) (k : Key) (dt : ℚ)
    (dx dy dr : Int) (hb : b.game_over = true) (hg : g.board.game_over = true) :
    handle_key b k = b ∧ update dt g = g ∧
    ((try_move dx dy b).2).game_over = true ∧
    ((try_rotate dr b).2).game_over = true ∧
    ((soft_drop b).2).game_over = true ∧
    (spawn b).game_over = true ∧
    (lock_piece b).game_over = true ∧
    (hard_drop b).game_over = true ∧
    (hold_piece b).game_over = true := by
  refine ⟨?_, ?_, ?_, ?_, ?_, spawn_game_over_mono b hb, lock_game_over_mono b hb,
    hard_drop_game_over_mono b hb, hold_game_over_mono b hb⟩
  · unfold handle_key
    rw [if_pos hb]
  · unfold update
    rw [if_pos hg]
  · rw [(try_move_snd_fields dx dy b).2.2.2.2.2.2.1]
    exact hb
  · rw [(try_rotate_snd_fields dr b).2.2.2.2.2.2.1]
    exact hb
  · rw [(soft_drop_snd_current b).2, (try_move_snd_fields 0 1 b).2.2.2.2.2.2.1]
    exact hb

/-- C5 witness: applied to the concrete game-over board bw5 and game
state gw5. -/
theorem C5_game_over_noops_witness :
    handle_key bw5 Key.kLeft = bw5 ∧ update 1 gw5 = gw5 ∧
    ((try_move 0 1 bw5).2).game_over = true ∧
    ((try_rotate 1 bw5).2).game_over = true ∧
    ((soft_drop bw5).2).game_over = true ∧
    (spawn bw5).game_over = true ∧
    (lock_piece bw5).game_over = true ∧
    (hard_drop bw5).game_over = true ∧
    (hold_piece bw5).game_over = true :=
  C5_game_over_noops bw5 gw5 Key.kLeft 1 0 1 1 rfl rfl

/-- C6: every spawn constructs the new piece at anchor x = cols / 2 - 2,
y = 0 (y = -1 for the I kind), rotation 0, taking its kind from the
front of the queue; if the piece is invalid at the spawn position the
game-over flag is set and the current slot stays absent, otherwise the
piece is installed as current and can-hold is set. -/
theorem C6_spawn (b : Board) (hc : b.current = none) :
    ∃ kind : Kind,
      (∀ k rest, b.next_queue = k :: rest → kind = k) ∧
      (valid b ⟨kind, (b.cols : Int) / 2 - 2, if kind = Kind.I then -1 else 0, 0⟩ = true →
        (spawn b).current =
          some ⟨kind, (b.cols : Int) / 2 - 2, if kind = Kind.I then -1 else 0, 0⟩ ∧
        (spawn b).can_hold = true ∧ (spawn b).game_over = b.game_over) ∧
      (valid b ⟨kind, (b.cols : Int) / 2 - 2, if kind = Kind.I then -1 else 0, 0⟩ = false →
        (spawn b).current = none ∧ (spawn b).game_over = true) := by
  obtain ⟨kind, b2, hcols, hrows, hgrid, hcur, hhold, hch, hscore, hlines, hlevel, hgo,
    hq, hk, hsp⟩ := spawn_master b
  refine ⟨kind, hk, ?_, ?_⟩
  · intro hv
    rw [hsp, if_pos hv]
    exact ⟨rfl, rfl, hgo⟩
  · intro hv
    rw [hsp, if_neg (by rw [hv]; exact Bool.false_ne_true)]
    exact ⟨hcur.trans hc, rfl⟩

/-- C6 witness: applied to the empty board bw6a (the spawn succeeds
there) and to the fully occupied board bw6b (the spawn collides). -/
theorem C6_spawn_witness :
    (∃ kind : Kind,
      (∀ k rest, bw6a.next_queue = k :: rest → kind = k) ∧
      (valid bw6a ⟨kind, (bw6a.cols : Int) / 2 - 2,
          if kind = Kind.I then -1 else 0, 0⟩ = true →
        (spawn bw6a).current =
          some ⟨kind, (bw6a.cols : Int) / 2 - 2, if kind = Kind.I then -1 else 0, 0⟩ ∧
        (spawn bw6a).can_hold = true ∧ (spawn bw6a).game_over = bw6a.game_over) ∧
      (valid bw6a ⟨kind, (bw6a.cols : Int) / 2 - 2,
          if kind = Kind.I then -1 else 0, 0⟩ = false →
        (spawn bw6a).current = none ∧ (spawn bw6a).game_over = true)) ∧
    (∃ kind : Kind,
      (∀ k rest, bw6b.next_queue = k :: rest → kind = k) ∧
      (valid bw6b ⟨kind, (bw6b.cols : Int) / 2 - 2,
          if kind = Kind.I then -1 else 0, 0⟩ = true →
        (spawn bw6b).current =
          some ⟨kind, (bw6b.cols : Int) / 2 - 2, if kind = Kind.I then -1 else 0, 0⟩ ∧
        (spawn bw6b).can_hold = true ∧ (spawn bw6b).game_over = bw6b.game_over) ∧
      (valid bw6b ⟨kind, (bw6b.cols : Int) / 2 - 2,
          if kind = Kind.I then -1 else 0, 0⟩ = false →
        (spawn bw6b).current = none ∧ (spawn bw6b).game_over = true)) :=
  ⟨C6_spawn bw6a rfl, C6_spawn bw6b rfl⟩

/-- C7: with a current piece, try_move either commits the piece
translated by exactly (dx,dy) and returns true, or returns false with
the whole board unchanged; translation is total, a blocked move is a
normal false outcome. -/
theorem C7_try_move (b : Board) (cur : Piece) (dx dy : Int) (h : b.current = some cur) :
    (valid b ⟨cur.kind, cur.x + dx, cur.y + dy, cur.rotation⟩ = true →
      try_move dx dy b = (true, { b with current := some (Piece.mk cur.kind (cur.x + dx) (cur.y + dy) cur.rotation) })) ∧
    (valid b ⟨cur.kind, cur.x + dx, cur.y + dy, cur.rotation⟩ = false →
      try_move dx dy b = (false, b)) := by
  rw [try_move_some dx dy b cur h]
  constructor
  · intro hv
    rw [if_pos hv]
  · intro hv
    rw [if_neg (by rw [hv]; exact Bool.false_ne_true)]

/-- C7 witness: on the concrete board bw7, the move down by one row is
committed as the translated piece, and the blocked move into the left
wall returns false with the state unchanged. -/
theorem C7_try_move_witness :
    try_move 0 1 bw7 = (true, { bw7 with current := some (Piece.mk Kind.T 0 1 0) }) ∧
    try_move (-1) 0 bw7 = (false, bw7) :=
  ⟨(C7_try_move bw7 (Piece.mk Kind.T 0 0 0) 0 1 rfl).1 (by decide),
   (C7_try_move bw7 (Piece.mk Kind.T 0 0 0) (-1) 0 rfl).2 (by decide)⟩

/-- C8: a single gravity update performs at most one lock regardless of
how much time has elapsed: the loop subtracts the interval and tries one
row down per pass, and the first failed downward move locks the piece
and stops the loop for this call. -/
theorem C8_gravity_single_lock :
    (∀ (fuel : Nat) (b : Board) (acc itv : ℚ), (gravSteps fuel b acc itv).2.2 ≤ 1) ∧
    (∀ (fuel : Nat) (b : Board) (acc itv : ℚ), itv ≤ acc → (try_move 0 1 b).1 = false →
      gravSteps (fuel + 1) b acc itv = (lock_piece b, acc - itv, 1)) := by
  constructor
  · intro fuel
    induction fuel with
    | zero =>
      intro b acc itv
      exact Nat.zero_le 1
    | succ n ih =>
      intro b acc itv
      simp only [gravSteps]
      by_cases hle : itv ≤ acc
      · rw [if_pos hle]
        by_cases hm : (try_move 0 1 b).1 = true
        · rw [if_pos hm]
          exact ih _ _ _
        · rw [if_neg hm]
      · rw [if_neg hle]
        exact Nat.zero_le 1
  · intro fuel b acc itv hle hm
    simp only [gravSteps]
    rw [if_pos hle, if_neg (by rw [hm]; exact Bool.false_ne_true),
      try_move_false 0 1 b hm]

/-- C8 witness: on the concrete board bw8 whose O piece rests on the
floor (the downward move fails), the gravity loop with two elapsed
intervals performs exactly the one lock and stops. -/
theorem C8_gravity_single_lock_witness :
    (gravSteps 3 bw8 2 1).2.2 ≤ 1 ∧
    gravSteps (2 + 1) bw8 2 1 = (lock_piece bw8, 2 - 1, 1) :=
  ⟨C8_gravity_single_lock.1 3 bw8 2 1,
   C8_gravity_single_lock.2 2 bw8 2 1 (by norm_num) (by decide)⟩

lemma drawAppend_queue_len (b : Board) :
    (drawAppend b).next_queue.length = b.next_queue.length + 1 := by
  obtain ⟨⟨k, hk⟩, _⟩ := drawAppend_fields b
  rw [hk, List.length_append]
  rfl

lemma soft_drop_snd_queue (b : Board) :
    ((soft_drop b).2).next_queue = ((try_move 0 1 b).2).next_queue := by
  rw [soft_drop_eq]
  by_cases hm : (try_move 0 1 b).1 = true
  · rw [if_pos hm]
  · rw [if_neg hm]

lemma lock_queue_len (b : Board) (n : Nat) (h5 : b.next_queue.length = n) (h1 : 1 ≤ n) :
    (lock_piece b).next_queue.length = n := by
  cases hc : b.current with
  | none =>
    rw [lock_piece_none b hc]
    exact h5
  | some cur =>
    rw [lock_piece_some b cur hc]
    rw [spawn_queue_length _ (by rw [(clear_lines_fields _).2.2.1]; exact h5.symm ▸ h1)]
    rw [(clear_lines_fields _).2.2.1]
    exact h5

/-- C9: the next-queue is pre-filled to the lookahead length 5 at
construction, each spawn consumes exactly one kind from the front and
appends one freshly drawn kind, and every other board operation leaves
the queue length at 5 — so the queue never falls below the lookahead
length after any spawn. -/
theorem C9_queue_invariant (cols rows : Nat) (rng0 : Nat → Shuffle) (b : Board)
    (dx dy dr : Int) (h5 : b.next_queue.length = 5) :
    (initBoard cols rows rng0).next_queue.length = 5 ∧
    (spawn b).next_queue.length = 5 ∧
    ((try_move dx dy b).2).next_queue.length = 5 ∧
    ((try_rotate dr b).2).next_queue.length = 5 ∧
    ((soft_drop b).2).next_queue.length = 5 ∧
    (lock_piece b).next_queue.length = 5 ∧
    (hard_drop b).next_queue.length = 5 ∧
    (hold_piece b).next_queue.length = 5 := by
  refine ⟨?_, ?_, ?_, ?_, ?_, lock_queue_len b 5 h5 (by omega), ?_, ?_⟩
  · unfold initBoard
    dsimp only
    rw [drawAppend_queue_len, drawAppend_queue_len, drawAppend_queue_len,
      drawAppend_queue_len, drawAppend_queue_len]
    rfl
  · rw [spawn_queue_length b (by omega)]
    exact h5
  · rw [(try_move_snd_fields dx dy b).2.2.2.2.2.2.2.1]
    exact h5
  · rw [(try_rotate_snd_fields dr b).2.2.2.2.2.2.2.1]
    exact h5
  · rw [soft_drop_snd_queue b, (try_move_snd_fields 0 1 b).2.2.2.2.2.2.2.1]
    exact h5
  · cases hc : b.current with
    | none =>
      rw [hard_drop_none b hc]
      exact h5
    | some cur =>
      rw [hard_drop_some b cur hc]
      exact lock_queue_len _ 5 h5 (by omega)
  · cases hc : b.current with
    | none =>
      rw [hold_piece_nocur b hc]
      exact h5
    | some cur =>
      by_cases hch : b.can_hold = true
      · cases hh : b.hold with
        | none =>
          rw [hold_piece_tohold b cur hc hch hh]
          show (spawn { b with hold := some cur.kind }).next_queue.length = 5
          rw [spawn_queue_length _ (by rw [show ({ b with hold := some cur.kind } : Board).next_queue = b.next_queue from rfl]; omega)]
          exact h5
        | some hk =>
          rw [hold_piece_swap b cur hk hc hch hh]
          by_cases hv : valid { b with current := some (Piece.mk hk ((b.cols : Int) / 2 - 2) 0 0), hold := some cur.kind } (Piece.mk hk ((b.cols : Int) / 2 - 2) 0 0) = true
          · rw [if_pos hv]
            exact h5
          · rw [if_neg hv]
            exact h5
      · rw [hold_piece_nocan b cur hc (eq_false_of_ne_true hch)]
        exact h5

/-- C9 witness: applied to the construction with the standard 10x20
dimensions and to the concrete board bw9 whose queue holds 5 kinds. -/
theorem C9_queue_invariant_witness :
    (initBoard 10 20 wRng).next_queue.length = 5 ∧
    (spawn bw9).next_queue.length = 5 ∧
    ((try_move 0 1 bw9).2).next_queue.length = 5 ∧
    ((try_rotate 1 bw9).2).next_queue.length = 5 ∧
    ((soft_drop bw9).2).next_queue.length = 5 ∧
    (lock_piece bw9).next_queue.length = 5 ∧
    (hard_drop bw9).next_queue.length = 5 ∧
    (hold_piece bw9).next_queue.length = 5 :=
  C9_queue_invariant 10 20 wRng bw9 0 1 1 rfl

/-- C10: every board operation is total when no current piece is
present: the movement, rotation and soft-drop commands return false
without mutating state, hard drop, lock and hold return the board
unchanged, the drop distance is 0 and the ghost-cell set is empty. -/
theorem C10_totality (b : Board) (dx dy dr : Int) (h : b.current = none) :
    try_move dx dy b = (false, b) ∧ try_rotate dr b = (false, b) ∧
    soft_drop b = (false, b) ∧ hard_drop b = b ∧ lock_piece b = b ∧
    hold_piece b = b ∧ hard_drop_distance b = 0 ∧ ghost_cells b = [] := by
  refine ⟨try_move_none dx dy b h, try_rotate_none dr b h, ?_, hard_drop_none b h,
    lock_piece_none b h, hold_piece_nocur b h, ?_, ghost_cells_none b h⟩
  · rw [soft_drop_eq, try_move_none 0 1 b h]
    rfl
  · unfold hard_drop_distance
    rw [h]

/-- C10 witness: applied to the concrete board bw10 with no current
piece. -/
theorem C10_totality_witness :
    try_move 0 1 bw10 = (false, bw10) ∧ try_rotate 1 bw10 = (false, bw10) ∧
    soft_drop bw10 = (false, bw10) ∧ hard_drop bw10 = bw10 ∧ lock_piece bw10 = bw10 ∧
    hold_piece bw10 = bw10 ∧ hard_drop_distance bw10 = 0 ∧ ghost_cells bw10 = [] :=
  C10_totality bw10 0 1 1 rfl

end Tetris
